import Mathlib

/-!
Verification of the aPARAtus path-relationship and archive-destination engine.

The definitions below are shallow embeddings of the TypeScript source:
  * `src/src/utils.ts`  — pure path utilities (`normalizePathPure`, `getParentPath`,
    `getItemName`, `isNestedPath`, `isTopLevelProjectFolder`,
    `generateArchiveDestination`, `validateParaFolderPath`);
  * `src/src/main.ts`   — the archive orchestration (`archiveItem`, `performArchive`).

Strings are modelled by Lean `String` (a structure over `List Char`); the
JavaScript regular-expression pipeline of `normalizePathPure` is translated
into explicit character-list passes in the same order as the source chains its
`.replace` calls.  A JavaScript `Set<string>` that the source only queries via
`.has` is modelled as a membership oracle `String → Bool` (the repository's own
test suite passes a `{ has: () => true }` object in place of a real set, so the
oracle view is exactly the interface the code relies on).  The source's internal
clock read `new Date().toISOString().split("T")[0]` is modelled as an explicit
`dateStr` input.  Fallible code returns `Except String _` whose error carries
the thrown message.
-/

namespace Aparatus

/-- `path.replace(/\\/g, "/")` — convert every backslash to a forward slash. -/
def mapBackslashes (l : List Char) : List Char :=
  l.map (fun c => if c = '\\' then '/' else c)

/-- Helper for `.replace(/\/+/g, "/")`: scan the characters keeping the first
slash of every run and dropping the rest; the flag records whether the previous
kept character position was inside a run of slashes. -/
def collapseAux : Bool → List Char → List Char
  | _, [] => []
  | prevSlash, c :: cs =>
    if c = '/' then
      if prevSlash then collapseAux true cs
      else '/' :: collapseAux true cs
    else c :: collapseAux false cs

/-- `path.replace(/\/+/g, "/")` — collapse every run of slashes to one slash. -/
def collapseSlashes (l : List Char) : List Char :=
  collapseAux false l

/-- `path.replace(/^\/+/, "")` — trim leading slashes. -/
def trimLeading (l : List Char) : List Char :=
  l.dropWhile (fun c => c = '/')

/-- `path.replace(/\/+$/, "")` — trim trailing slashes. -/
def trimTrailing (l : List Char) : List Char :=
  (l.reverse.dropWhile (fun c => c = '/')).reverse

/-- `normalizePathPure` from `src/src/utils.ts`: backslashes to slashes, then
collapse multiple slashes, then trim leading slashes, then trim trailing
slashes — in exactly the order the source chains its `.replace` calls. -/
def normalizePathPure (path : String) : String :=
  String.mk (trimTrailing (trimLeading (collapseSlashes (mapBackslashes path.data))))

/-- `getParentPath` from `src/src/utils.ts`: normalize, then return the
substring before the last `/`, or `""` when no slash is present.
`substring(0, lastIndexOf("/"))` is computed on the reversed character list:
everything strictly after the first `/` of the reversal, reversed back. -/
def getParentPath (folderPath : String) : String :=
  let normalized := (normalizePathPure folderPath).data
  match normalized.reverse.dropWhile (fun c => !(c = '/')) with
  | [] => ""
  | _ :: rest => String.mk rest.reverse

/-- `getItemName` from `src/src/utils.ts`: normalize, then return the substring
after the last `/`, or the whole normalized string when no slash is present. -/
def getItemName (folderPath : String) : String :=
  let normalized := (normalizePathPure folderPath).data
  String.mk (normalized.reverse.takeWhile (fun c => !(c = '/'))).reverse

/-- JavaScript `s.startsWith(pre)`, modelled on the underlying character lists. -/
def strStartsWith (s pre : String) : Bool :=
  pre.data.isPrefixOf s.data

/-- `isNestedPath` from `src/src/utils.ts`: equal normalized forms, or either
normalized form followed by `"/"` is a prefix of the other. -/
def isNestedPath (path1 path2 : String) : Bool :=
  let normalized1 := normalizePathPure path1
  let normalized2 := normalizePathPure path2
  if normalized1 == normalized2 then true
  else if strStartsWith normalized2 (normalized1 ++ "/") then true
  else if strStartsWith normalized1 (normalized2 ++ "/") then true
  else false

/-- `isTopLevelProjectFolder` from `src/src/utils.ts`: the folder's parent must
exactly match the (normalized) projects path. -/
def isTopLevelProjectFolder (folderPath projectsPath : String) : Bool :=
  let normalizedFolder := normalizePathPure folderPath
  let normalizedProjects := normalizePathPure projectsPath
  getParentPath normalizedFolder == normalizedProjects

/-- No two adjacent slashes (invariant of normalized path strings). -/
def noDoubleSlash (l : List Char) : Prop :=
  List.Chain' (fun a b => ¬(a = '/' ∧ b = '/')) l

/-- `MAX_COLLISION_ATTEMPTS` from `src/src/utils.ts`. -/
def MAX_COLLISION_ATTEMPTS : Nat := 1000

/-- The template literal of the counter candidate,
`` `${normalizedArchive}/${folderName} (Archived ${dateStr}) (${counter})` ``. -/
def counterDest (normalizedArchive folderName dateStr : String) (counter : Nat) : String :=
  normalizedArchive ++ "/" ++ folderName ++ " (Archived " ++ dateStr ++ ") ("
    ++ toString counter ++ ")"

/-- The `while (true)` counter loop of `generateArchiveDestination`
(`src/src/utils.ts` lines 169–181): build the counter candidate, return it when
free, otherwise increment the counter and throw once it exceeds
`MAX_COLLISION_ATTEMPTS`.  The recursion terminates because the counter grows
toward the safety-valve bound, exactly as in the source. -/
def archiveCounterLoop (normalizedArchive folderName dateStr : String)
    (existingPaths : String → Bool) (counter : Nat) : Except String String :=
  if existingPaths (counterDest normalizedArchive folderName dateStr counter) = false then
    .ok (counterDest normalizedArchive folderName dateStr counter)
  else if MAX_COLLISION_ATTEMPTS < counter + 1 then
    .error "Too many archive collisions - please clean up your archive folder"
  else archiveCounterLoop normalizedArchive folderName dateStr existingPaths (counter + 1)
termination_by MAX_COLLISION_ATTEMPTS + 1 - counter
decreasing_by omega

/-- `generateArchiveDestination` from `src/src/utils.ts`.  `existingPaths` is
the `Set<string>` seen through its `.has` interface; `dateStr` models the
function's internal clock read `new Date().toISOString().split("T")[0]` as an
explicit input. -/
def generateArchiveDestination (archivePath folderName : String)
    (existingPaths : String → Bool) (dateStr : String) : Except String String :=
  let normalizedArchive := normalizePathPure archivePath
  let baseDest := normalizedArchive ++ "/" ++ folderName
  if existingPaths baseDest = false then .ok baseDest
  else
    let dateDest := normalizedArchive ++ "/" ++ folderName ++ " (Archived " ++ dateStr ++ ")"
    if existingPaths dateDest = false then .ok dateDest
    else archiveCounterLoop normalizedArchive folderName dateStr existingPaths 2

/-- The candidate sequence of the §4.3 naming policy, written from the spec's
words for the refinement statement of the destination namer: candidate 0 is
`targetDir/baseName`, candidate 1 appends the archived date, and candidate
`n ≥ 2` appends the date and the counter `n`. -/
def specCandidate (normalizedDir baseName dateStr : String) : Nat → String
  | 0 => normalizedDir ++ "/" ++ baseName
  | 1 => normalizedDir ++ "/" ++ baseName ++ " (Archived " ++ dateStr ++ ")"
  | Nat.succ (Nat.succ n) =>
      normalizedDir ++ "/" ++ baseName ++ " (Archived " ++ dateStr ++ ") ("
        ++ toString (n + 2) ++ ")"

/-- `ParaFolderField` from `src/src/utils.ts`. -/
inductive ParaFolderField
  | projectsPath
  | areasPath
  | resourcesPath
  | archivePath
deriving DecidableEq, Repr

/-- `ParaSettings` from `src/src/utils.ts`. -/
structure ParaSettings where
  projectsPath : String
  areasPath : String
  resourcesPath : String
  archivePath : String
deriving Repr

/-- `settings[field]` — dynamic field access used by `validateParaFolderPath`. -/
def fieldValue (settings : ParaSettings) : ParaFolderField → String
  | .projectsPath => settings.projectsPath
  | .areasPath => settings.areasPath
  | .resourcesPath => settings.resourcesPath
  | .archivePath => settings.archivePath

/-- Functional update of one settings field (used to state that the validator
never consults the field being changed). -/
def setField (settings : ParaSettings) : ParaFolderField → String → ParaSettings
  | .projectsPath, v => { settings with projectsPath := v }
  | .areasPath, v => { settings with areasPath := v }
  | .resourcesPath, v => { settings with resourcesPath := v }
  | .archivePath, v => { settings with archivePath := v }

/-- `FOLDER_DISPLAY_NAMES` from `src/src/utils.ts`. -/
def folderDisplayName : ParaFolderField → String
  | .projectsPath => "Projects"
  | .areasPath => "Areas"
  | .resourcesPath => "Resources"
  | .archivePath => "Archive"

/-- The `allFields` list of `validateParaFolderPath`. -/
def allParaFields : List ParaFolderField :=
  [.projectsPath, .areasPath, .resourcesPath, .archivePath]

/-- One iteration of the `for (const otherField of otherFields)` loop of
`validateParaFolderPath`: the equality check, then the nesting check. -/
def checkAgainst (newPath : String) (field : ParaFolderField)
    (settings : ParaSettings) (otherField : ParaFolderField) : Option String :=
  let otherPath := fieldValue settings otherField
  let otherName := folderDisplayName otherField
  let thisName := folderDisplayName field
  if newPath == otherPath then
    some (thisName ++ " folder cannot be the same as " ++ otherName ++ " folder")
  else if isNestedPath newPath otherPath then
    some (thisName ++ " folder cannot be nested with " ++ otherName ++ " folder")
  else
    none

/-- `validateParaFolderPath` from `src/src/utils.ts`: filter out the field being
changed, then return the first conflict found over the remaining fields in
declaration order, or `none`. -/
def validateParaFolderPath (newPath : String) (field : ParaFolderField)
    (settings : ParaSettings) : Option String :=
  (allParaFields.filter (fun f => f ≠ field)).findSome?
    (checkAgainst newPath field settings)

/-- The three fields other than a given one, in the declaration order of
`allFields` (`projectsPath`, `areasPath`, `resourcesPath`, `archivePath`) —
used to state in which order `validateParaFolderPath` visits the others. -/
def remainingFields : ParaFolderField → ParaFolderField × ParaFolderField × ParaFolderField
  | .projectsPath => (.areasPath, .resourcesPath, .archivePath)
  | .areasPath => (.projectsPath, .resourcesPath, .archivePath)
  | .resourcesPath => (.projectsPath, .areasPath, .archivePath)
  | .archivePath => (.projectsPath, .areasPath, .resourcesPath)

/-- `MAX_RENAME_RETRIES` from `src/src/main.ts`. -/
def MAX_RENAME_RETRIES : Nat := 3

/-- The retry loop of `performArchive` (`src/src/main.ts` lines 1526–1540),
returning the result together with the trace of move attempts
`(destination, outcome)` (outcome `none` = the rename succeeded, `some e` = it
threw `e`).  `moveResult attempt dest` is the outcome `app.vault.rename`
would produce on that attempt; `refreshed attempt` is the snapshot
`getExistingPaths` would return while handling that attempt's failure.
`fuel` counts the remaining retries, so `attempt = MAX_RENAME_RETRIES - 1`
(the final attempt, which rethrows) corresponds to `fuel = 0`. -/
def performArchiveLoop (moveResult : Nat → String → Option String)
    (refreshed : Nat → String → Bool) (archiveSubfolder itemName dateStr : String) :
    Nat → Nat → String → Except String String × List (String × Option String)
  | attempt, fuel, destPath =>
    match moveResult attempt destPath with
    | none => (.ok destPath, [(destPath, none)])
    | some renameError =>
      match fuel with
      | 0 => (.error renameError, [(destPath, some renameError)])
      | fuel' + 1 =>
        match generateArchiveDestination archiveSubfolder itemName
            (fun p => refreshed attempt p || p == destPath) dateStr with
        | .error genError => (.error genError, [(destPath, some renameError)])
        | .ok newDest =>
          ((performArchiveLoop moveResult refreshed archiveSubfolder itemName
              dateStr (attempt + 1) fuel' newDest).1,
            (destPath, some renameError) ::
              (performArchiveLoop moveResult refreshed archiveSubfolder itemName
                dateStr (attempt + 1) fuel' newDest).2)

/-- `performArchive` from `src/src/main.ts`: start the retry loop at attempt 0
with `MAX_RENAME_RETRIES - 1` retries remaining. -/
def performArchive (moveResult : Nat → String → Option String)
    (refreshed : Nat → String → Bool) (destPath itemName archiveSubfolder dateStr : String) :
    Except String String × List (String × Option String) :=
  performArchiveLoop moveResult refreshed archiveSubfolder itemName dateStr 0
    (MAX_RENAME_RETRIES - 1) destPath

/-- Environment oracles for one `archiveItem` run (`src/src/main.ts`):
outcomes of `app.vault.rename`, snapshots returned by `getExistingPaths`
during retry handling, outcomes of `ensureFolderExists` (`some e` = it threw
`e` because a path segment exists but is not a folder), and the confirmation
modal modelled as an immediate user decision (the execution model of the
plugin is single-threaded and cooperative). -/
structure ArchiveEnv where
  moveResult : Nat → String → Option String
  refreshed : Nat → String → Bool
  ensureResult : String → Option String
  confirmBeforeArchive : Bool
  userConfirms : Bool

/-- Observable state of one plugin instance plus the storage operations it has
issued: the in-process `archivingItems` guard set, the `ensureFolderExists`
calls, the `getExistingPaths` calls made before destination generation, and
every `app.vault.rename` attempt `(from, to, outcome)` (outcome `none` =
success). -/
structure ArchiveState where
  archivingItems : List String
  ensureCalls : List String
  listCalls : List String
  moveCalls : List (String × String × Option String)
deriving Repr

/-- `getSourceFolders` from `src/src/main.ts` (final plugin snapshot): the
normalized projects, areas and resources paths — the archive root is not a
source folder. -/
def getSourceFolders (settings : ParaSettings) : List String :=
  [normalizePathPure settings.projectsPath,
   normalizePathPure settings.areasPath,
   normalizePathPure settings.resourcesPath]

/-- The `try { ... } catch { Notice } ` body of `archiveItem`
(`src/src/main.ts` lines 1443–1494): find the owning source folder, ensure the
archive folder and per-source subfolder exist, snapshot the existing paths,
generate a destination, then (unless the confirmation modal is declined)
run `performArchive`.  A thrown error ends the body (the catch only shows a
`Notice`).  `existing` is the snapshot `getExistingPaths` returns for the
archive subfolder. -/
def archiveItemBody (env : ArchiveEnv) (existing : String → Bool)
    (settings : ParaSettings) (dateStr : String) (itemPath : String)
    (st : ArchiveState) : ArchiveState :=
  let archivePath := normalizePathPure settings.archivePath
  let itemName := getItemName itemPath
  let sourceFolders := getSourceFolders settings
  let sourceFolder := sourceFolders.find? (fun src => isTopLevelProjectFolder itemPath src)
  let sourceFolderName := match sourceFolder with
    | some f => getItemName f
    | none => ""
  let st := { st with ensureCalls := st.ensureCalls ++ [archivePath] }
  match env.ensureResult archivePath with
  | some _ => st
  | none =>
    let archiveSubfolder :=
      if sourceFolderName == "" then archivePath
      else normalizePathPure (archivePath ++ "/" ++ sourceFolderName)
    let st := { st with ensureCalls := st.ensureCalls ++ [archiveSubfolder] }
    match env.ensureResult archiveSubfolder with
    | some _ => st
    | none =>
      let st := { st with listCalls := st.listCalls ++ [archiveSubfolder] }
      match generateArchiveDestination archiveSubfolder itemName existing dateStr with
      | .error _ => st
      | .ok destPath =>
        if env.confirmBeforeArchive && !env.userConfirms then st
        else
          let run := performArchive env.moveResult env.refreshed destPath itemName
            archiveSubfolder dateStr
          { st with moveCalls := st.moveCalls ++ run.2.map (fun a => (itemPath, a.1, a.2)) }

/-- `archiveItem` from `src/src/main.ts` (lines 1432–1498): the single-flight
guard around the body — return immediately when the path is already being
archived, otherwise add it to `archivingItems`, run the body (its errors are
swallowed into a `Notice`), and remove the path again in the `finally`. -/
def archiveItem (env : ArchiveEnv) (existing : String → Bool)
    (settings : ParaSettings) (dateStr : String) (st : ArchiveState)
    (itemPath : String) : ArchiveState :=
  if st.archivingItems.contains itemPath then st
  else
    let st1 := { st with archivingItems := itemPath :: st.archivingItems }
    let st2 := archiveItemBody env existing settings dateStr itemPath st1
    { st2 with archivingItems := st2.archivingItems.erase itemPath }

/-- Number of successful renames recorded in a move trace. -/
def successCount (moves : List (String × String × Option String)) : Nat :=
  (moves.filter (fun a => a.2.2.isNone)).length

/-!  ## Lemmas about path normalization  -/

theorem mapBackslashes_eq_self {l : List Char} (h : ∀ c ∈ l, c ≠ '\\') :
    mapBackslashes l = l := by
  unfold mapBackslashes
  induction l with
  | nil => rfl
  | cons c cs ih =>
    simp only [List.map_cons, List.cons.injEq]
    constructor
    · simp [h c (by simp)]
    · exact ih (fun d hd => h d (by simp [hd]))

theorem not_backslash_mem_mapBackslashes {l : List Char} {c : Char}
    (h : c ∈ mapBackslashes l) : c ≠ '\\' := by
  unfold mapBackslashes at h
  rcases List.mem_map.1 h with ⟨a, _, rfl⟩
  by_cases ha : a = '\\' <;> simp [ha]

theorem collapseAux_sublist : ∀ (b : Bool) (l : List Char),
    List.Sublist (collapseAux b l) l := by
  intro b l
  induction l generalizing b with
  | nil => simp [collapseAux]
  | cons c cs ih =>
    by_cases hc : c = '/'
    · subst hc
      cases b with
      | true => simpa [collapseAux] using (ih true).trans (List.sublist_cons_self _ _)
      | false => simpa [collapseAux] using (ih true).cons₂ '/'
    · simpa [collapseAux, hc] using (ih false).cons₂ c

theorem collapseAux_true_head {l : List Char} {c : Char}
    (h : (collapseAux true l).head? = some c) : c ≠ '/' := by
  induction l with
  | nil => simp [collapseAux] at h
  | cons a cs ih =>
    by_cases ha : a = '/'
    · subst ha; simp [collapseAux] at h; exact ih h
    · simp [collapseAux, ha] at h; subst h; exact ha

theorem collapseAux_chain : ∀ (b : Bool) (l : List Char),
    noDoubleSlash (collapseAux b l) := by
  intro b l
  induction l generalizing b with
  | nil => simp [collapseAux, noDoubleSlash]
  | cons c cs ih =>
    by_cases hc : c = '/'
    · subst hc
      cases b with
      | true => simpa [collapseAux] using ih true
      | false =>
        simp only [collapseAux, if_pos rfl]
        refine List.chain'_cons'.2 ⟨?_, ih true⟩
        intro y hy
        have := collapseAux_true_head hy
        tauto
    · simp only [collapseAux, if_neg hc]
      refine List.chain'_cons'.2 ⟨?_, ih false⟩
      intro y _
      tauto

theorem collapseAux_eq_self : ∀ (b : Bool) (l : List Char),
    noDoubleSlash l → (b = true → l.head? ≠ some '/') → collapseAux b l = l := by
  intro b l
  induction l generalizing b with
  | nil => intros; simp [collapseAux]
  | cons c cs ih =>
    intro hch hb
    by_cases hc : c = '/'
    · subst hc
      cases b with
      | true => simp at hb
      | false =>
        have hcs : collapseAux true cs = cs := by
          apply ih true (List.chain'_cons'.1 hch).2
          intro _ hhd
          rcases cs with _ | ⟨d, ds⟩
          · simp at hhd
          · simp at hhd
            have := (List.chain'_cons'.1 hch).1 d (by simp)
            tauto
        simp [collapseAux, hcs]
    · simp only [collapseAux, if_neg hc]
      rw [ih false (List.chain'_cons'.1 hch).2 (by simp)]

theorem dropWhile_eq_self_of_head {p : Char → Bool} {l : List Char}
    (h : ∀ c, l.head? = some c → p c = false) : l.dropWhile p = l := by
  cases l with
  | nil => simp
  | cons c cs => simp [List.dropWhile, h c rfl]

theorem head_dropWhile_false {p : Char → Bool} {l : List Char} {c : Char}
    (h : (l.dropWhile p).head? = some c) : p c = false := by
  induction l with
  | nil => simp at h
  | cons a cs ih =>
    by_cases ha : p a
    · simp [List.dropWhile, ha] at h; exact ih h
    · simp [List.dropWhile, ha] at h
      subst h
      simpa using ha

theorem prefix_head? {l t : List Char} (h : t <+: l) {c : Char}
    (hc : t.head? = some c) : l.head? = some c := by
  rcases h with ⟨r, rfl⟩
  cases t with
  | nil => simp at hc
  | cons a ts => simpa using hc

/-- The output of `normalizePathPure` contains no backslash. -/
theorem normalized_no_backslash (p : String) :
    ∀ c ∈ (normalizePathPure p).data, c ≠ '\\' := by
  intro c hc
  apply not_backslash_mem_mapBackslashes (l := p.data)
  have h1 : c ∈ trimLeading (collapseSlashes (mapBackslashes p.data)) := by
    have := List.dropWhile_sublist
      (l := (trimLeading (collapseSlashes (mapBackslashes p.data))).reverse)
      (p := fun c => c = '/')
    unfold normalizePathPure trimTrailing at hc
    simp only [String.data] at hc
    rw [List.mem_reverse] at hc
    have := this.mem hc
    rwa [List.mem_reverse] at this
  have h2 : c ∈ collapseSlashes (mapBackslashes p.data) :=
    (List.dropWhile_sublist _).mem h1
  exact (collapseAux_sublist false _).mem h2

/-- The output of `normalizePathPure` has no two adjacent slashes. -/
theorem normalized_noDoubleSlash (p : String) :
    noDoubleSlash (normalizePathPure p).data := by
  have hy : noDoubleSlash (collapseSlashes (mapBackslashes p.data)) :=
    collapseAux_chain false _
  have hz : noDoubleSlash (trimLeading (collapseSlashes (mapBackslashes p.data))) :=
    hy.suffix (List.dropWhile_suffix _)
  have hw : (normalizePathPure p).data <+:
      trimLeading (collapseSlashes (mapBackslashes p.data)) := by
    unfold normalizePathPure trimTrailing
    simp only [String.data]
    rw [← List.reverse_suffix, List.reverse_reverse]
    exact List.dropWhile_suffix _
  exact hz.prefix hw

/-- The output of `normalizePathPure` does not start with a slash. -/
theorem normalized_head (p : String) :
    ∀ c, (normalizePathPure p).data.head? = some c → c ≠ '/' := by
  intro c hc
  have hw : (normalizePathPure p).data <+:
      trimLeading (collapseSlashes (mapBackslashes p.data)) := by
    unfold normalizePathPure trimTrailing
    simp only [String.data]
    rw [← List.reverse_suffix, List.reverse_reverse]
    exact List.dropWhile_suffix _
  have hz := prefix_head? hw hc
  have := head_dropWhile_false (p := fun c => c = '/') hz
  simpa using this

/-- The output of `normalizePathPure` does not end with a slash. -/
theorem normalized_last (p : String) :
    ∀ c, (normalizePathPure p).data.reverse.head? = some c → c ≠ '/' := by
  intro c hc
  unfold normalizePathPure trimTrailing at hc
  simp only [String.data, List.reverse_reverse] at hc
  have := head_dropWhile_false (p := fun c => c = '/') hc
  simpa using this

/-- Normalization is idempotent (helper form, shared by later developments). -/
theorem normalizePathPure_idem (p : String) :
    normalizePathPure (normalizePathPure p) = normalizePathPure p := by
  have h1 : mapBackslashes (normalizePathPure p).data = (normalizePathPure p).data :=
    mapBackslashes_eq_self (normalized_no_backslash p)
  have h2 : collapseSlashes (normalizePathPure p).data = (normalizePathPure p).data := by
    unfold collapseSlashes
    exact collapseAux_eq_self false _ (normalized_noDoubleSlash p) (by simp)
  have h3 : trimLeading (normalizePathPure p).data = (normalizePathPure p).data := by
    unfold trimLeading
    apply dropWhile_eq_self_of_head
    intro c hc
    simpa using normalized_head p c hc
  have h4 : trimTrailing (normalizePathPure p).data = (normalizePathPure p).data := by
    unfold trimTrailing
    have h : (normalizePathPure p).data.reverse.dropWhile (fun c => c = '/') =
        (normalizePathPure p).data.reverse := by
      apply dropWhile_eq_self_of_head
      intro c hc
      simpa using normalized_last p c hc
    rw [h, List.reverse_reverse]
  conv_lhs => rw [normalizePathPure]
  rw [h1, h2, h3, h4]

/-!  ## Lemmas about hierarchy relations  -/

theorem isNestedPath_iff (a b : String) : isNestedPath a b = true ↔
    (normalizePathPure a = normalizePathPure b ∨
     (normalizePathPure a ++ "/").data <+: (normalizePathPure b).data ∨
     (normalizePathPure b ++ "/").data <+: (normalizePathPure a).data) := by
  simp only [isNestedPath, strStartsWith]
  split_ifs with h1 h2 h3
  · simp_all [List.isPrefixOf_iff_prefix]
  · simp_all [List.isPrefixOf_iff_prefix]
  · simp_all [List.isPrefixOf_iff_prefix]
  · simp_all [List.isPrefixOf_iff_prefix]

theorem getParentPath_normalize (f : String) :
    getParentPath (normalizePathPure f) = getParentPath f := by
  unfold getParentPath
  rw [normalizePathPure_idem]

theorem isTopLevelProjectFolder_iff (f r : String) :
    isTopLevelProjectFolder f r = true ↔ getParentPath f = normalizePathPure r := by
  simp only [isTopLevelProjectFolder, getParentPath_normalize, beq_iff_eq]

theorem isTopLevel_self_false {r : String} (hr : normalizePathPure r ≠ "") :
    isTopLevelProjectFolder r r = false := by
  simp only [isTopLevelProjectFolder, getParentPath_normalize]
  rw [beq_eq_false_iff_ne]
  intro heq
  unfold getParentPath at heq
  simp only [] at heq
  cases hd : (normalizePathPure r).data.reverse.dropWhile (fun c => !(c = '/')) with
  | nil =>
    rw [hd] at heq
    exact hr heq.symm
  | cons c rest =>
    rw [hd] at heq
    have hdata : rest.reverse = (normalizePathPure r).data := congrArg String.data heq
    have hlen : rest.length + 1 ≤ (normalizePathPure r).data.length := by
      have := (List.dropWhile_sublist (p := fun c => !(c = '/'))
        (l := (normalizePathPure r).data.reverse)).length_le
      rw [hd] at this
      simpa using this
    have : rest.length = (normalizePathPure r).data.length := by
      rw [← hdata]; simp
    omega

/-!  ## Lemmas about the destination namer  -/

theorem specCandidate_counter (na fn ds : String) {k : Nat} (hk : 2 ≤ k) :
    specCandidate na fn ds k = counterDest na fn ds k := by
  match k, hk with
  | (n + 2), _ => rfl

/-- Every run of the counter loop either returns a candidate the oracle
reports free, or fails with the too-many-collisions error. -/
theorem archiveCounterLoop_cases (na fn ds : String) (ex : String → Bool)
    (counter : Nat) :
    (∃ d, archiveCounterLoop na fn ds ex counter = .ok d ∧ ex d = false) ∨
    archiveCounterLoop na fn ds ex counter =
      .error "Too many archive collisions - please clean up your archive folder" := by
  induction counter using archiveCounterLoop.induct na fn ds ex with
  | case1 counter hfree =>
    left
    exact ⟨counterDest na fn ds counter, by rw [archiveCounterLoop, if_pos hfree], hfree⟩
  | case2 counter hfree hmax =>
    right
    rw [archiveCounterLoop, if_neg hfree, if_pos hmax]
  | case3 counter hfree hmax ih =>
    rw [archiveCounterLoop, if_neg hfree, if_neg hmax]
    exact ih

/-- When the counter loop returns a destination, that destination is the first
free counter candidate at or after the starting counter. -/
theorem archiveCounterLoop_ok (na fn ds : String) (ex : String → Bool)
    (counter : Nat) (d : String)
    (h : archiveCounterLoop na fn ds ex counter = .ok d) :
    ∃ k, counter ≤ k ∧ d = counterDest na fn ds k ∧ ex d = false ∧
      ∀ m, counter ≤ m → m < k → ex (counterDest na fn ds m) = true := by
  induction counter using archiveCounterLoop.induct na fn ds ex with
  | case1 counter hfree =>
    rw [archiveCounterLoop, if_pos hfree] at h
    have hd := Except.ok.inj h
    subst hd
    exact ⟨counter, le_refl _, rfl, hfree, by intro m hm hm'; omega⟩
  | case2 counter hfree hmax =>
    rw [archiveCounterLoop, if_neg hfree, if_pos hmax] at h
    exact absurd h (by simp)
  | case3 counter hfree hmax ih =>
    rw [archiveCounterLoop, if_neg hfree, if_neg hmax] at h
    rcases ih h with ⟨k, hk, hd, hfree', hall⟩
    refine ⟨k, by omega, hd, hfree', ?_⟩
    intro m hm hm'
    rcases Nat.eq_or_lt_of_le hm with hm | hm
    · subst hm
      simpa using hfree
    · exact hall m hm hm'

/-- The counter loop only probes the oracle at counter candidates between the
starting counter and the safety valve: two oracles that agree there produce
the same outcome. -/
theorem archiveCounterLoop_congr (na fn ds : String) (ex ex' : String → Bool)
    (counter : Nat)
    (hagree : ∀ k, counter ≤ k → k ≤ MAX_COLLISION_ATTEMPTS →
      ex (counterDest na fn ds k) = ex' (counterDest na fn ds k))
    (hcounter : counter ≤ MAX_COLLISION_ATTEMPTS) :
    archiveCounterLoop na fn ds ex counter = archiveCounterLoop na fn ds ex' counter := by
  induction counter using archiveCounterLoop.induct na fn ds ex with
  | case1 counter hfree =>
    have hfree' : ex' (counterDest na fn ds counter) = false := by
      rw [← hagree counter (le_refl _) hcounter]; exact hfree
    rw [archiveCounterLoop, if_pos hfree]
    conv_rhs => rw [archiveCounterLoop]
    rw [if_pos hfree']
  | case2 counter hfree hmax =>
    have hfree' : ¬ ex' (counterDest na fn ds counter) = false := by
      rw [← hagree counter (le_refl _) hcounter]; exact hfree
    rw [archiveCounterLoop, if_neg hfree, if_pos hmax]
    conv_rhs => rw [archiveCounterLoop]
    rw [if_neg hfree', if_pos hmax]
  | case3 counter hfree hmax ih =>
    have hfree' : ¬ ex' (counterDest na fn ds counter) = false := by
      rw [← hagree counter (le_refl _) hcounter]; exact hfree
    rw [archiveCounterLoop, if_neg hfree, if_neg hmax]
    conv_rhs => rw [archiveCounterLoop]
    rw [if_neg hfree', if_neg hmax]
    exact ih (fun k hk hk' => hagree k (by omega) hk') (by omega)

/-- `generateArchiveDestination` either returns a destination its oracle
reports free, or fails with the too-many-collisions error. -/
theorem generateArchiveDestination_cases (a b : String) (ex : String → Bool)
    (ds : String) :
    (∃ d, generateArchiveDestination a b ex ds = .ok d ∧ ex d = false) ∨
    generateArchiveDestination a b ex ds =
      .error "Too many archive collisions - please clean up your archive folder" := by
  simp only [generateArchiveDestination]
  split_ifs with h1 h2
  · left; exact ⟨_, rfl, h1⟩
  · left; exact ⟨_, rfl, h2⟩
  · exact archiveCounterLoop_cases _ _ _ _ _

/-- When `generateArchiveDestination` returns a destination, it is the first
candidate of the §4.3 sequence that the oracle reports free. -/
theorem generateArchiveDestination_ok (a b : String) (ex : String → Bool)
    (ds d : String) (h : generateArchiveDestination a b ex ds = .ok d) :
    ∃ i, d = specCandidate (normalizePathPure a) b ds i ∧ ex d = false ∧
      ∀ j < i, ex (specCandidate (normalizePathPure a) b ds j) = true := by
  simp only [generateArchiveDestination] at h
  split_ifs at h with h1 h2
  · have hd := Except.ok.inj h
    subst hd
    exact ⟨0, rfl, h1, by intro j hj; omega⟩
  · have hd := Except.ok.inj h
    subst hd
    refine ⟨1, rfl, h2, ?_⟩
    intro j hj
    have hj0 : j = 0 := by omega
    subst hj0
    simpa using h1
  · rcases archiveCounterLoop_ok _ _ _ _ _ _ h with ⟨k, hk, hd, hfree, hall⟩
    refine ⟨k, ?_, hfree, ?_⟩
    · rw [hd, specCandidate_counter _ _ _ hk]
    · intro j hj
      match j, hj with
      | 0, _ => simpa using h1
      | 1, _ => simpa using h2
      | (m + 2), hj =>
        rw [specCandidate_counter _ _ _ (by omega)]
        exact hall (m + 2) (by omega) hj

/-- `generateArchiveDestination` probes the existing-name oracle only at the
candidates of the §4.3 sequence with index at most `MAX_COLLISION_ATTEMPTS`:
two oracles that agree there produce the same result. -/
theorem generateArchiveDestination_congr (a b : String) (ex ex' : String → Bool)
    (ds : String)
    (hagree : ∀ i ≤ MAX_COLLISION_ATTEMPTS,
      ex (specCandidate (normalizePathPure a) b ds i) =
      ex' (specCandidate (normalizePathPure a) b ds i)) :
    generateArchiveDestination a b ex ds = generateArchiveDestination a b ex' ds := by
  have h0 := hagree 0 (by norm_num [MAX_COLLISION_ATTEMPTS])
  have h1 := hagree 1 (by norm_num [MAX_COLLISION_ATTEMPTS])
  simp only [specCandidate] at h0 h1
  simp only [generateArchiveDestination]
  by_cases hb : ex (normalizePathPure a ++ "/" ++ b) = false
  · rw [if_pos hb, if_pos (h0 ▸ hb)]
  · rw [if_neg hb, if_neg (fun hc => hb (h0 ▸ hc))]
    by_cases hd : ex (normalizePathPure a ++ "/" ++ b ++ " (Archived " ++ ds ++ ")") = false
    · rw [if_pos hd, if_pos (h1 ▸ hd)]
    · rw [if_neg hd, if_neg (fun hc => hd (h1 ▸ hc))]
      apply archiveCounterLoop_congr
      · intro k hk hk'
        rw [← specCandidate_counter _ _ _ hk]
        exact hagree k hk'
      · norm_num [MAX_COLLISION_ATTEMPTS]

theorem getLast?_cons_of_ne {α : Type} (a : α) {l : List α} (h : l ≠ []) :
    (a :: l).getLast? = l.getLast? := by
  cases l with
  | nil => exact absurd rfl h
  | cons b t => rw [List.getLast?_cons_cons]

/-!  ## Lemmas about the archive retry loop  -/

theorem performArchiveLoop_move_ok {mr : Nat → String → Option String}
    {rf : Nat → String → Bool} {sub n ds : String} {attempt fuel : Nat} {d : String}
    (h : mr attempt d = none) :
    performArchiveLoop mr rf sub n ds attempt fuel d = (.ok d, [(d, none)]) := by
  rw [performArchiveLoop, h]

theorem performArchiveLoop_zero_fail {mr : Nat → String → Option String}
    {rf : Nat → String → Bool} {sub n ds : String} {attempt : Nat} {d e : String}
    (h : mr attempt d = some e) :
    performArchiveLoop mr rf sub n ds attempt 0 d = (.error e, [(d, some e)]) := by
  rw [performArchiveLoop, h]

theorem performArchiveLoop_succ_gen_err {mr : Nat → String → Option String}
    {rf : Nat → String → Bool} {sub n ds : String} {attempt fuel' : Nat} {d e ge : String}
    (h : mr attempt d = some e)
    (hg : generateArchiveDestination sub n (fun p => rf attempt p || p == d) ds =
      .error ge) :
    performArchiveLoop mr rf sub n ds attempt (fuel' + 1) d =
      (.error ge, [(d, some e)]) := by
  rw [performArchiveLoop, h]
  simp only [hg]

theorem performArchiveLoop_succ_gen_ok {mr : Nat → String → Option String}
    {rf : Nat → String → Bool} {sub n ds : String} {attempt fuel' : Nat} {d e nd : String}
    (h : mr attempt d = some e)
    (hg : generateArchiveDestination sub n (fun p => rf attempt p || p == d) ds =
      .ok nd) :
    performArchiveLoop mr rf sub n ds attempt (fuel' + 1) d =
      ((performArchiveLoop mr rf sub n ds (attempt + 1) fuel' nd).1,
        (d, some e) :: (performArchiveLoop mr rf sub n ds (attempt + 1) fuel' nd).2) := by
  rw [performArchiveLoop, h]
  simp only [hg]

theorem performArchiveLoop_ne_nil (mr : Nat → String → Option String)
    (rf : Nat → String → Bool) (sub n ds : String) (attempt fuel : Nat) (d : String) :
    (performArchiveLoop mr rf sub n ds attempt fuel d).2 ≠ [] := by
  cases hm : mr attempt d with
  | none => simp [performArchiveLoop_move_ok hm]
  | some e =>
    cases fuel with
    | zero => simp [performArchiveLoop_zero_fail hm]
    | succ fuel' =>
      cases hg : generateArchiveDestination sub n (fun p => rf attempt p || p == d) ds with
      | error ge => simp [performArchiveLoop_succ_gen_err hm hg]
      | ok nd => simp [performArchiveLoop_succ_gen_ok hm hg]

theorem performArchiveLoop_head (mr : Nat → String → Option String)
    (rf : Nat → String → Bool) (sub n ds : String) (attempt fuel : Nat) (d : String) :
    ∃ o, (performArchiveLoop mr rf sub n ds attempt fuel d).2.head? = some (d, o) := by
  cases hm : mr attempt d with
  | none => exact ⟨none, by simp [performArchiveLoop_move_ok hm]⟩
  | some e =>
    cases fuel with
    | zero => exact ⟨some e, by simp [performArchiveLoop_zero_fail hm]⟩
    | succ fuel' =>
      cases hg : generateArchiveDestination sub n (fun p => rf attempt p || p == d) ds with
      | error ge => exact ⟨some e, by simp [performArchiveLoop_succ_gen_err hm hg]⟩
      | ok nd => exact ⟨some e, by simp [performArchiveLoop_succ_gen_ok hm hg]⟩

theorem performArchiveLoop_length (mr : Nat → String → Option String)
    (rf : Nat → String → Bool) (sub n ds : String) :
    ∀ (fuel attempt : Nat) (d : String),
      (performArchiveLoop mr rf sub n ds attempt fuel d).2.length ≤ fuel + 1 := by
  intro fuel
  induction fuel with
  | zero =>
    intro attempt d
    cases hm : mr attempt d with
    | none => simp [performArchiveLoop_move_ok hm]
    | some e => simp [performArchiveLoop_zero_fail hm]
  | succ fuel' ih =>
    intro attempt d
    cases hm : mr attempt d with
    | none => simp [performArchiveLoop_move_ok hm]
    | some e =>
      cases hg : generateArchiveDestination sub n (fun p => rf attempt p || p == d) ds with
      | error ge => simp [performArchiveLoop_succ_gen_err hm hg]
      | ok nd =>
        have := ih (attempt + 1) nd
        simp only [performArchiveLoop_succ_gen_ok hm hg, List.length_cons]
        omega

/-- Each trace contains at most one successful rename (the loop exits on the
first success). -/
theorem performArchiveLoop_success (mr : Nat → String → Option String)
    (rf : Nat → String → Bool) (sub n ds : String) :
    ∀ (fuel attempt : Nat) (d : String),
      ((performArchiveLoop mr rf sub n ds attempt fuel d).2.filter
        (fun a => a.2.isNone)).length ≤ 1 := by
  intro fuel
  induction fuel with
  | zero =>
    intro attempt d
    cases hm : mr attempt d with
    | none => simp [performArchiveLoop_move_ok hm]
    | some e => simp [performArchiveLoop_zero_fail hm]
  | succ fuel' ih =>
    intro attempt d
    cases hm : mr attempt d with
    | none => simp [performArchiveLoop_move_ok hm]
    | some e =>
      cases hg : generateArchiveDestination sub n (fun p => rf attempt p || p == d) ds with
      | error ge => simp [performArchiveLoop_succ_gen_err hm hg]
      | ok nd =>
        have := ih (attempt + 1) nd
        simpa [performArchiveLoop_succ_gen_ok hm hg] using this

/-- The retry rule: whenever a failed attempt in the trace is followed by
another attempt, the next attempt's destination was recomputed by
`generateArchiveDestination` over the refreshed snapshot extended with the
failed destination — whatever the error was. -/
theorem performArchiveLoop_retry (mr : Nat → String → Option String)
    (rf : Nat → String → Bool) (sub n ds : String) :
    ∀ (fuel attempt : Nat) (d : String) (i : Nat) (d' : String) (e : String)
      (y : String × Option String),
      (performArchiveLoop mr rf sub n ds attempt fuel d).2.get? i = some (d', some e) →
      (performArchiveLoop mr rf sub n ds attempt fuel d).2.get? (i + 1) = some y →
      generateArchiveDestination sub n (fun p => rf (attempt + i) p || p == d') ds =
        .ok y.1 := by
  intro fuel
  induction fuel with
  | zero =>
    intro attempt d i d' e y hi hy
    cases hm : mr attempt d with
    | none =>
      rw [performArchiveLoop_move_ok hm] at hy
      rcases i with _ | m <;> simp at hy
    | some e0 =>
      rw [performArchiveLoop_zero_fail hm] at hy
      rcases i with _ | m <;> simp at hy
  | succ fuel' ih =>
    intro attempt d i d' e y hi hy
    cases hm : mr attempt d with
    | none =>
      rw [performArchiveLoop_move_ok hm] at hy
      rcases i with _ | m <;> simp at hy
    | some e0 =>
      cases hg : generateArchiveDestination sub n (fun p => rf attempt p || p == d) ds with
      | error ge =>
        rw [performArchiveLoop_succ_gen_err hm hg] at hy
        rcases i with _ | m <;> simp at hy
      | ok nd =>
        rw [performArchiveLoop_succ_gen_ok hm hg] at hi hy
        cases i with
        | zero =>
          simp only [List.get?_cons_zero, Option.some.injEq] at hi
          have hd' : d = d' := congrArg Prod.fst hi
          subst hd'
          simp only [List.get?_cons_succ] at hy
          rcases performArchiveLoop_head mr rf sub n ds (attempt + 1) fuel' nd with ⟨o, ho⟩
          have hhead : (performArchiveLoop mr rf sub n ds (attempt + 1) fuel' nd).2.head? =
              some y := by
            rw [← List.get?_zero]
            exact hy
          rw [ho] at hhead
          have hy1 : y = (nd, o) := (Option.some.inj hhead).symm
          rw [hy1]
          simpa using hg
        | succ m =>
          simp only [List.get?_cons_succ] at hi hy
          have := ih (attempt + 1) nd m d' e y hi hy
          have harith : attempt + 1 + m = attempt + (m + 1) := by omega
          rwa [harith] at this

/-- After every non-final failed attempt the loop really does retry: whenever
recomputation over the refreshed snapshot succeeds, a following attempt is
present in the trace. -/
theorem performArchiveLoop_retries (mr : Nat → String → Option String)
    (rf : Nat → String → Bool) (sub n ds : String) :
    ∀ (fuel attempt : Nat) (d : String) (i : Nat) (d' e : String),
      (performArchiveLoop mr rf sub n ds attempt fuel d).2.get? i = some (d', some e) →
      i < fuel →
      (∃ nd, generateArchiveDestination sub n
        (fun q => rf (attempt + i) q || q == d') ds = .ok nd) →
      ((performArchiveLoop mr rf sub n ds attempt fuel d).2.get? (i + 1)).isSome := by
  intro fuel
  induction fuel with
  | zero =>
    intro attempt d i d' e hi hlt
    omega
  | succ fuel' ih =>
    intro attempt d i d' e hi hlt hg'
    cases hm : mr attempt d with
    | none =>
      rw [performArchiveLoop_move_ok hm] at hi
      rcases i with _ | m
      · simp at hi
      · simp at hi
    | some e0 =>
      cases hg : generateArchiveDestination sub n (fun q => rf attempt q || q == d) ds with
      | error ge =>
        rw [performArchiveLoop_succ_gen_err hm hg] at hi
        rcases i with _ | m
        · simp only [List.get?_cons_zero, Option.some.injEq] at hi
          have hd' : d = d' := congrArg Prod.fst hi
          subst hd'
          rcases hg' with ⟨nd, hnd⟩
          simp only [Nat.add_zero] at hnd
          rw [hg] at hnd
          exact absurd hnd (by simp)
        · simp at hi
      | ok nd0 =>
        rw [performArchiveLoop_succ_gen_ok hm hg] at hi ⊢
        cases i with
        | zero =>
          simp only [List.get?_cons_succ]
          have hne := performArchiveLoop_ne_nil mr rf sub n ds (attempt + 1) fuel' nd0
          cases htr : (performArchiveLoop mr rf sub n ds (attempt + 1) fuel' nd0).2 with
          | nil => exact absurd htr hne
          | cons a t => simp
        | succ m =>
          simp only [List.get?_cons_succ] at hi ⊢
          have harith : attempt + (m + 1) = attempt + 1 + m := by omega
          rw [harith] at hg'
          exact ih (attempt + 1) nd0 m d' e hi (by omega) hg'

/-- When every attempt in a full-length trace failed, the loop's result is the
error of the last attempt, unmodified. -/
theorem performArchiveLoop_last_error (mr : Nat → String → Option String)
    (rf : Nat → String → Bool) (sub n ds : String) :
    ∀ (fuel attempt : Nat) (d dl e : String),
      (performArchiveLoop mr rf sub n ds attempt fuel d).2.length = fuel + 1 →
      (performArchiveLoop mr rf sub n ds attempt fuel d).2.getLast? =
        some (dl, some e) →
      (performArchiveLoop mr rf sub n ds attempt fuel d).1 = .error e := by
  intro fuel
  induction fuel with
  | zero =>
    intro attempt d dl e hlen hlast
    cases hm : mr attempt d with
    | none =>
      rw [performArchiveLoop_move_ok hm] at hlast
      simp at hlast
    | some e0 =>
      rw [performArchiveLoop_zero_fail hm] at hlast ⊢
      simp at hlast ⊢
      exact hlast.2
  | succ fuel' ih =>
    intro attempt d dl e hlen hlast
    cases hm : mr attempt d with
    | none =>
      rw [performArchiveLoop_move_ok hm] at hlen
      simp at hlen
    | some e0 =>
      cases hg : generateArchiveDestination sub n (fun p => rf attempt p || p == d) ds with
      | error ge =>
        rw [performArchiveLoop_succ_gen_err hm hg] at hlen
        simp at hlen
      | ok nd =>
        rw [performArchiveLoop_succ_gen_ok hm hg] at hlen hlast ⊢
        have hne := performArchiveLoop_ne_nil mr rf sub n ds (attempt + 1) fuel' nd
        rw [getLast?_cons_of_ne _ hne] at hlast
        simp only [List.length_cons, Nat.succ.injEq] at hlen
        exact ih (attempt + 1) nd dl e hlen hlast

/-!  ## Lemmas about the single-flight guard  -/

/-- The body of `archiveItem` never touches the `archivingItems` set. -/
theorem archiveItemBody_archivingItems (env : ArchiveEnv) (ex : String → Bool)
    (settings : ParaSettings) (ds p : String) (st : ArchiveState) :
    (archiveItemBody env ex settings ds p st).archivingItems = st.archivingItems := by
  simp only [archiveItemBody]
  split
  · rfl
  · split
    · rfl
    · split
      · rfl
      · split
        · rfl
        · rfl

theorem successCount_append_map (m : List (String × String × Option String))
    (p : String) (tr : List (String × Option String))
    (h : (tr.filter (fun a => a.2.isNone)).length ≤ 1) :
    successCount (m ++ tr.map (fun a => (p, a.1, a.2))) ≤ successCount m + 1 := by
  simp only [successCount, List.filter_append, List.length_append, List.filter_map,
    Function.comp_def, List.length_map]
  omega

/-- The body of `archiveItem` adds at most one successful rename. -/
theorem archiveItemBody_success_bound (env : ArchiveEnv) (ex : String → Bool)
    (settings : ParaSettings) (ds p : String) (st : ArchiveState) :
    successCount (archiveItemBody env ex settings ds p st).moveCalls ≤
      successCount st.moveCalls + 1 := by
  simp only [archiveItemBody]
  split
  · exact Nat.le_succ _
  · split
    · exact Nat.le_succ _
    · split
      · exact Nat.le_succ _
      · split
        · exact Nat.le_succ _
        · simp only [performArchive]
          exact successCount_append_map _ _ _
            (performArchiveLoop_success _ _ _ _ _ _ _ _)

/-- A second `archiveItem` call issued while the path is in the guard set is a
no-op on the whole observable state. -/
theorem archiveItem_inflight (env : ArchiveEnv) (ex : String → Bool)
    (settings : ParaSettings) (ds : String) (st : ArchiveState) (p : String)
    (h : st.archivingItems.contains p = true) :
    archiveItem env ex settings ds st p = st := by
  simp only [archiveItem]
  rw [if_pos h]

/-- Every `archiveItem` call leaves the guard set exactly as it found it. -/
theorem archiveItem_guard_restored (env : ArchiveEnv) (ex : String → Bool)
    (settings : ParaSettings) (ds : String) (st : ArchiveState) (p : String) :
    (archiveItem env ex settings ds st p).archivingItems = st.archivingItems := by
  by_cases h : st.archivingItems.contains p = true
  · simp only [archiveItem]
    rw [if_pos h]
  · simp only [archiveItem]
    rw [if_neg h]
    simp only []
    rw [archiveItemBody_archivingItems]
    exact List.erase_cons_head p st.archivingItems

/-- One `archiveItem` call performs at most one successful rename. -/
theorem archiveItem_success_bound (env : ArchiveEnv) (ex : String → Bool)
    (settings : ParaSettings) (ds : String) (st : ArchiveState) (p : String) :
    successCount (archiveItem env ex settings ds st p).moveCalls ≤
      successCount st.moveCalls + 1 := by
  by_cases h : st.archivingItems.contains p = true
  · rw [archiveItem_inflight env ex settings ds st p h]
    exact Nat.le_succ _
  · simp only [archiveItem]
    rw [if_neg h]
    exact archiveItemBody_success_bound env ex settings ds p
      { st with archivingItems := p :: st.archivingItems }

/-!  ## Claim theorems  -/

/-- C6: path normalization is idempotent — for every string `p`, including the
empty string, `normalizePathPure (normalizePathPure p) = normalizePathPure p`. -/
theorem claim_C6 (p : String) :
    normalizePathPure (normalizePathPure p) = normalizePathPure p :=
  normalizePathPure_idem p

/-- C7: `isNestedPath pathA pathB` is true exactly when the normalized forms
are equal or one normalized form followed by `"/"` is a string prefix of the
other; in particular `isNestedPath "Work" "Work/Projects"` and
`isNestedPath "X" "X"` hold while `isNestedPath "Projects" "ProjectsExtra"`
does not (the check anchors on a full path-segment boundary). -/
theorem claim_C7 :
    (∀ a b : String, isNestedPath a b = true ↔
      (normalizePathPure a = normalizePathPure b ∨
       (normalizePathPure a ++ "/").data <+: (normalizePathPure b).data ∨
       (normalizePathPure b ++ "/").data <+: (normalizePathPure a).data)) ∧
    isNestedPath "Work" "Work/Projects" = true ∧
    isNestedPath "X" "X" = true ∧
    isNestedPath "Projects" "ProjectsExtra" = false :=
  ⟨isNestedPath_iff, by decide, by decide, by decide⟩

/-- C8 (counterexample): the claim "a root is never a top-level child of
itself, for every root path" fails at the empty root path: the storage root
(empty string, also every string normalizing to it) is reported as a top-level
child of itself, because its parent is again the empty string. -/
theorem claim_C8_counterexample : isTopLevelProjectFolder "" "" = true := by decide

/-- C8 (amended): `isTopLevelProjectFolder itemPath rootPath` is true exactly
when `getParentPath itemPath` equals `normalizePathPure rootPath`; and every
root path whose normalized form is nonempty is never a top-level child of
itself. -/
theorem claim_C8 :
    (∀ f r : String,
      isTopLevelProjectFolder f r = true ↔ getParentPath f = normalizePathPure r) ∧
    (∀ r : String, normalizePathPure r ≠ "" →
      isTopLevelProjectFolder r r = false) :=
  ⟨isTopLevelProjectFolder_iff, fun _ hr => isTopLevel_self_false hr⟩

/-- C8 (witness): the amended claim applied at the concrete root
`"Projects"`. -/
theorem claim_C8_witness :
    normalizePathPure "Projects" ≠ "" ∧
    isTopLevelProjectFolder "Projects" "Projects" = false :=
  ⟨by decide, claim_C8.2 "Projects" (by decide)⟩

/-- C1: whenever `generateArchiveDestination` returns a destination, that
destination is reported free by the existing-name oracle and is the first free
candidate of the ordered sequence `targetDir/baseName`,
`targetDir/baseName (Archived date)`, `targetDir/baseName (Archived date) (N)`
for `N = 2, 3, …` — every earlier candidate is reported present. -/
theorem claim_C1 (targetDir baseName : String) (ex : String → Bool)
    (ds d : String)
    (h : generateArchiveDestination targetDir baseName ex ds = .ok d) :
    ex d = false ∧
    ∃ i, d = specCandidate (normalizePathPure targetDir) baseName ds i ∧
      ∀ j < i, ex (specCandidate (normalizePathPure targetDir) baseName ds j) = true := by
  rcases generateArchiveDestination_ok targetDir baseName ex ds d h with
    ⟨i, hd, hfree, hall⟩
  exact ⟨hfree, i, hd, hall⟩

/-- C1 (witness): with only `Archive/MyProject` occupied, the returned
destination is the dated candidate and the base candidate was occupied. -/
theorem claim_C1_witness :
    (fun p => p == "Archive/MyProject") "Archive/MyProject (Archived 2024-03-15)"
      = false ∧
    ∃ i, "Archive/MyProject (Archived 2024-03-15)" =
        specCandidate (normalizePathPure "Archive") "MyProject" "2024-03-15" i ∧
      ∀ j < i, (fun p => p == "Archive/MyProject")
        (specCandidate (normalizePathPure "Archive") "MyProject" "2024-03-15" j) = true :=
  claim_C1 "Archive" "MyProject" (fun p => p == "Archive/MyProject") "2024-03-15"
    "Archive/MyProject (Archived 2024-03-15)" rfl

/-- C9: `generateArchiveDestination` is total — on every input it either
returns a candidate its oracle reports free or fails with the
too-many-collisions error; an oracle that reports every candidate present
forces that failure; and the function probes the oracle only at candidates of
index at most `MAX_COLLISION_ATTEMPTS` (= 1000), so the failure is reached
within the 1000-counter safety valve and the loop never runs unboundedly. -/
theorem claim_C9 (a b : String) (ex : String → Bool) (ds : String) :
    ((∃ d, generateArchiveDestination a b ex ds = .ok d ∧ ex d = false) ∨
      generateArchiveDestination a b ex ds =
        .error "Too many archive collisions - please clean up your archive folder") ∧
    ((∀ s, ex s = true) → generateArchiveDestination a b ex ds =
        .error "Too many archive collisions - please clean up your archive folder") ∧
    (∀ ex' : String → Bool,
      (∀ i ≤ MAX_COLLISION_ATTEMPTS,
        ex (specCandidate (normalizePathPure a) b ds i) =
        ex' (specCandidate (normalizePathPure a) b ds i)) →
      generateArchiveDestination a b ex ds = generateArchiveDestination a b ex' ds) := by
  refine ⟨generateArchiveDestination_cases a b ex ds, ?_, ?_⟩
  · intro hall
    rcases generateArchiveDestination_cases a b ex ds with ⟨d, _, hfree⟩ | herr
    · rw [hall d] at hfree
      exact absurd hfree (by simp)
    · exact herr
  · intro ex' hagree
    exact generateArchiveDestination_congr a b ex ex' ds hagree

/-- C9 (witness): the always-colliding oracle forces the too-many-collisions
error. -/
theorem claim_C9_witness :
    generateArchiveDestination "Archive" "MyProject" (fun _ => true) "2024-03-15" =
      .error "Too many archive collisions - please clean up your archive folder" :=
  (claim_C9 "Archive" "MyProject" (fun _ => true) "2024-03-15").2.1 (fun _ => rfl)

/-- C3 (counterexample): the claim that the destination namer takes a
caller-supplied current date and is independent of a clock read inside the
function fails on the code: `generateArchiveDestination` has no date
parameter — it reads `new Date()` internally (modelled here as the `dateStr`
input) — and two calls with identical target directory, base name and
existing-name set but different internal clock dates return different
destinations. -/
theorem claim_C3_counterexample :
    generateArchiveDestination "Archive" "MyProject"
        (fun p => p == "Archive/MyProject") "2024-03-15" ≠
      generateArchiveDestination "Archive" "MyProject"
        (fun p => p == "Archive/MyProject") "2024-03-16" := by
  have h1 : generateArchiveDestination "Archive" "MyProject"
      (fun p => p == "Archive/MyProject") "2024-03-15" =
      .ok "Archive/MyProject (Archived 2024-03-15)" := rfl
  have h2 : generateArchiveDestination "Archive" "MyProject"
      (fun p => p == "Archive/MyProject") "2024-03-16" =
      .ok "Archive/MyProject (Archived 2024-03-16)" := rfl
  rw [h1, h2]
  intro h
  exact absurd (Except.ok.inj h) (by decide)

/-- C3 (amended): `generateArchiveDestination` is deterministic given its
three code-level arguments together with the date read from the internal
clock: its result depends only on the target directory, base name, the
oracle's answers on the candidate sequence, and that clock date.  Calls with
identical arguments and equal clock dates agree; the oracle enters only
through its answers on the candidates. -/
theorem claim_C3 (a b : String) (ex ex' : String → Bool) (ds : String)
    (hagree : ∀ i ≤ MAX_COLLISION_ATTEMPTS,
      ex (specCandidate (normalizePathPure a) b ds i) =
      ex' (specCandidate (normalizePathPure a) b ds i)) :
    generateArchiveDestination a b ex ds = generateArchiveDestination a b ex' ds :=
  generateArchiveDestination_congr a b ex ex' ds hagree

/-- C3 (witness): two extensionally different oracles that agree on the
candidates give the same destination. -/
theorem claim_C3_witness :
    generateArchiveDestination "Archive" "MyProject" (fun p => p == "Archive/X")
        "2024-03-15" =
      generateArchiveDestination "Archive" "MyProject" (fun p => "Archive/X" == p)
        "2024-03-15" :=
  claim_C3 "Archive" "MyProject" (fun p => p == "Archive/X")
    (fun p => "Archive/X" == p) "2024-03-15" (fun _ _ => BEq.comm)

theorem findSome?_three (f : ParaFolderField → Option String) (a b c : ParaFolderField) :
    List.findSome? f [a, b, c] = (f a).orElse (fun _ => (f b).orElse (fun _ => f c)) := by
  cases h1 : f a <;> cases h2 : f b <;> cases h3 : f c <;>
    simp [List.findSome?_cons, h1, h2, h3, Option.orElse]

theorem checkAgainst_none_iff (newPath : String) (field : ParaFolderField)
    (s : ParaSettings) (f : ParaFolderField) :
    checkAgainst newPath field s f = none ↔
      newPath ≠ fieldValue s f ∧ isNestedPath newPath (fieldValue s f) = false := by
  simp only [checkAgainst]
  split_ifs with h1 h2 <;> simp_all

/-- C10: `validateParaFolderPath` checks the candidate path only against the
current values of the other three fields (replacing the changed field's own
current value never alters the result), visits those fields in declaration
order returning the first conflict, returns `none` exactly when the candidate
neither equals nor nests with any of the other three values, and accepts a
candidate that coincides with the changed field's own current value. -/
theorem claim_C10 :
    (∀ (newPath : String) (field : ParaFolderField) (s : ParaSettings) (v : String),
      validateParaFolderPath newPath field (setField s field v) =
        validateParaFolderPath newPath field s) ∧
    (∀ (newPath : String) (field : ParaFolderField) (s : ParaSettings),
      validateParaFolderPath newPath field s =
        (checkAgainst newPath field s (remainingFields field).1).orElse (fun _ =>
          (checkAgainst newPath field s (remainingFields field).2.1).orElse (fun _ =>
            checkAgainst newPath field s (remainingFields field).2.2))) ∧
    (∀ (newPath : String) (field : ParaFolderField) (s : ParaSettings),
      validateParaFolderPath newPath field s = none ↔
        ∀ f, f ≠ field → newPath ≠ fieldValue s f ∧
          isNestedPath newPath (fieldValue s f) = false) ∧
    validateParaFolderPath "Projects" ParaFolderField.projectsPath
      ⟨"Projects", "Areas", "Resources", "Archive"⟩ = none := by
  refine ⟨?_, ?_, ?_, by decide⟩
  · intro newPath field s v
    cases field <;> rfl
  · intro newPath field s
    cases field <;>
      simp only [validateParaFolderPath, allParaFields, remainingFields,
        List.filter_cons, List.filter_nil] <;>
      norm_num <;>
      exact findSome?_three _ _ _ _
  · intro newPath field s
    rw [validateParaFolderPath, List.findSome?_eq_none_iff]
    constructor
    · intro h f hf
      have hmem : f ∈ allParaFields.filter (fun g => g ≠ field) := by
        rw [List.mem_filter]
        exact ⟨by cases f <;> simp [allParaFields], by simp [hf]⟩
      have := h f hmem
      rwa [checkAgainst_none_iff] at this
    · intro h f hmem
      rw [List.mem_filter] at hmem
      rw [checkAgainst_none_iff]
      exact h f (by simpa using hmem.2)

/-- C10 (witness): a candidate equal to the field's own current value passes
validation, and the none-result characterization applied at a concrete
configuration. -/
theorem claim_C10_witness :
    validateParaFolderPath "Projects" ParaFolderField.projectsPath
      ⟨"Projects", "Areas", "Resources", "Archive"⟩ = none ∧
    (validateParaFolderPath "NewPlace" ParaFolderField.areasPath
        ⟨"Projects", "Areas", "Resources", "Archive"⟩ = none ↔
      ∀ f, f ≠ ParaFolderField.areasPath →
        "NewPlace" ≠ fieldValue ⟨"Projects", "Areas", "Resources", "Archive"⟩ f ∧
        isNestedPath "NewPlace"
          (fieldValue ⟨"Projects", "Areas", "Resources", "Archive"⟩ f) = false) :=
  ⟨claim_C10.2.2.2,
    claim_C10.2.2.1 "NewPlace" ParaFolderField.areasPath
      ⟨"Projects", "Areas", "Resources", "Archive"⟩⟩

/-- C5: the single-flight guard — an `archiveItem` call for a path already in
the in-process `archivingItems` set returns immediately with the state (and so
the storage-operation log) completely unchanged; every call leaves the guard
set exactly as it found it (success, swallowed error, or modal cancellation);
a second call issued after a first call has recorded the path is a no-op, so
the moves across the two calls are exactly the first call's moves; and one
call performs at most one successful move. -/
theorem claim_C5 (env : ArchiveEnv) (ex : String → Bool) (settings : ParaSettings)
    (ds : String) (st : ArchiveState) (p : String) :
    (st.archivingItems.contains p = true → archiveItem env ex settings ds st p = st) ∧
    (archiveItem env ex settings ds st p).archivingItems = st.archivingItems ∧
    archiveItem env ex settings ds
        { st with archivingItems := p :: st.archivingItems } p =
      { st with archivingItems := p :: st.archivingItems } ∧
    successCount (archiveItem env ex settings ds st p).moveCalls ≤
      successCount st.moveCalls + 1 :=
  ⟨fun h => archiveItem_inflight env ex settings ds st p h,
    archiveItem_guard_restored env ex settings ds st p,
    archiveItem_inflight env ex settings ds _ p (by simp),
    archiveItem_success_bound env ex settings ds st p⟩

/-- C5 (witness): a call on a path already recorded in the guard set leaves a
concrete state untouched. -/
theorem claim_C5_witness :
    archiveItem ⟨fun _ _ => none, fun _ _ => false, fun _ => none, false, true⟩
        (fun _ => false) ⟨"Projects", "Areas", "Resources", "Archive"⟩ "2024-03-15"
        ⟨["Projects/App"], [], [], []⟩ "Projects/App" =
      ⟨["Projects/App"], [], [], []⟩ :=
  (claim_C5 ⟨fun _ _ => none, fun _ _ => false, fun _ => none, false, true⟩
    (fun _ => false) ⟨"Projects", "Areas", "Resources", "Archive"⟩ "2024-03-15"
    ⟨["Projects/App"], [], [], []⟩ "Projects/App").1 (by decide)

/-- C4: the archive move makes at most `MAX_RENAME_RETRIES = 3` rename
attempts; whenever a failed attempt is followed by another, the next attempt's
destination is recomputed by `generateArchiveDestination` over the re-listed
snapshot extended with the failed destination — regardless of what the error
was; after every non-final failed attempt whose recomputation succeeds a
following attempt is actually made; and when the trace is full length with its
last attempt failed (all three attempts failed), the surfaced result is the
last attempt's error, unmodified. -/
theorem claim_C4 (mr : Nat → String → Option String) (rf : Nat → String → Bool)
    (d0 itemName archiveSubfolder ds : String) :
    MAX_RENAME_RETRIES = 3 ∧
    (performArchive mr rf d0 itemName archiveSubfolder ds).2.length ≤
      MAX_RENAME_RETRIES ∧
    (∀ (i : Nat) (d' e : String) (y : String × Option String),
      (performArchive mr rf d0 itemName archiveSubfolder ds).2.get? i =
        some (d', some e) →
      (performArchive mr rf d0 itemName archiveSubfolder ds).2.get? (i + 1) = some y →
      generateArchiveDestination archiveSubfolder itemName
        (fun q => rf i q || q == d') ds = .ok y.1) ∧
    (∀ (i : Nat) (d' e : String),
      (performArchive mr rf d0 itemName archiveSubfolder ds).2.get? i =
        some (d', some e) →
      i < MAX_RENAME_RETRIES - 1 →
      (∃ nd, generateArchiveDestination archiveSubfolder itemName
        (fun q => rf i q || q == d') ds = .ok nd) →
      ((performArchive mr rf d0 itemName archiveSubfolder ds).2.get? (i + 1)).isSome) ∧
    (∀ (dl e : String),
      (performArchive mr rf d0 itemName archiveSubfolder ds).2.length =
        MAX_RENAME_RETRIES →
      (performArchive mr rf d0 itemName archiveSubfolder ds).2.getLast? =
        some (dl, some e) →
      (performArchive mr rf d0 itemName archiveSubfolder ds).1 = .error e) := by
  refine ⟨rfl, ?_, ?_, ?_, ?_⟩
  · exact performArchiveLoop_length mr rf archiveSubfolder itemName ds
      (MAX_RENAME_RETRIES - 1) 0 d0
  · intro i d' e y hi hy
    have := performArchiveLoop_retry mr rf archiveSubfolder itemName ds
      (MAX_RENAME_RETRIES - 1) 0 d0 i d' e y hi hy
    simpa using this
  · intro i d' e hi hlt hg'
    exact performArchiveLoop_retries mr rf archiveSubfolder itemName ds
      (MAX_RENAME_RETRIES - 1) 0 d0 i d' e hi hlt (by simpa using hg')
  · intro dl e hlen hlast
    exact performArchiveLoop_last_error mr rf archiveSubfolder itemName ds
      (MAX_RENAME_RETRIES - 1) 0 d0 dl e hlen hlast

/-- C4 (witness): with a rename that always fails (error `"0"`, `"1"`, `"2"`
on the three attempts) and recomputation succeeding each time, the surfaced
error is the final attempt's `"2"`. -/
theorem claim_C4_witness :
    (performArchive (fun i _ => some (toString i)) (fun _ _ => false)
        "Archive/Item" "Item" "Archive" "D").1 = .error "2" :=
  (claim_C4 (fun i _ => some (toString i)) (fun _ _ => false)
    "Archive/Item" "Item" "Archive" "D").2.2.2.2 "Archive/Item" "2" (by rfl) (by rfl)

/-- C2 (counterexample): the claim that archiving an item that is a top-level
child of none of the configured roots fails without a move is false on the
code: for the item `Stuff/Item` under default roots (top-level child of no
source root, witnessed by the first conjunct) the archive proceeds and
performs the move, into the archive root itself. -/
theorem claim_C2_counterexample :
    (getSourceFolders ⟨"Projects", "Areas", "Resources", "Archive"⟩).all
        (fun src => !(isTopLevelProjectFolder "Stuff/Item" src)) = true ∧
    (archiveItem ⟨fun _ _ => none, fun _ _ => false, fun _ => none, false, true⟩
        (fun _ => false) ⟨"Projects", "Areas", "Resources", "Archive"⟩ "2024-03-15"
        ⟨[], [], [], []⟩ "Stuff/Item").moveCalls =
      [("Stuff/Item", "Archive/Item", none)] :=
  ⟨by decide, by decide⟩

/-- C2 (amended): when the item's path is a top-level child of none of the
configured source roots, `archiveItem` does not fail: it falls back to the
archive root itself as the target directory — it ensures the archive root
(twice: once as archive root, once as the would-be subfolder), lists it,
generates the destination directly under it, and (destination generation
succeeding and no confirmation dialog) attempts the move there. -/
theorem claim_C2 (env : ArchiveEnv) (ex : String → Bool) (settings : ParaSettings)
    (ds : String) (st : ArchiveState) (p : String)
    (hguard : st.archivingItems.contains p = false)
    (hfind : (getSourceFolders settings).find?
      (fun src => isTopLevelProjectFolder p src) = none)
    (hensure : env.ensureResult (normalizePathPure settings.archivePath) = none) :
    (archiveItem env ex settings ds st p).ensureCalls =
        st.ensureCalls ++ [normalizePathPure settings.archivePath] ++
          [normalizePathPure settings.archivePath] ∧
    (archiveItem env ex settings ds st p).listCalls =
        st.listCalls ++ [normalizePathPure settings.archivePath] ∧
    (∀ d, generateArchiveDestination (normalizePathPure settings.archivePath)
          (getItemName p) ex ds = .ok d →
      env.confirmBeforeArchive = false →
      (archiveItem env ex settings ds st p).moveCalls =
        st.moveCalls ++
          (performArchive env.moveResult env.refreshed d (getItemName p)
            (normalizePathPure settings.archivePath) ds).2.map
              (fun a => (p, a.1, a.2)) ∧
      (archiveItem env ex settings ds st p).moveCalls ≠ st.moveCalls) := by
  have hni : ¬ (st.archivingItems.contains p = true) := by rw [hguard]; simp
  simp only [archiveItem]
  rw [if_neg hni]
  simp only [archiveItemBody, hfind, beq_self_eq_true, if_true, hensure]
  refine ⟨?_, ?_, ?_⟩
  · cases hg : generateArchiveDestination (normalizePathPure settings.archivePath)
        (getItemName p) ex ds with
    | error ge => simp [hg]
    | ok d =>
      by_cases hc : (env.confirmBeforeArchive && !env.userConfirms) = true
      · simp [hg, hc]
      · simp [hg, hc]
  · cases hg : generateArchiveDestination (normalizePathPure settings.archivePath)
        (getItemName p) ex ds with
    | error ge => simp [hg]
    | ok d =>
      by_cases hc : (env.confirmBeforeArchive && !env.userConfirms) = true
      · simp [hg, hc]
      · simp [hg, hc]
  · intro d hg hconf
    have hc : (env.confirmBeforeArchive && !env.userConfirms) = false := by
      rw [hconf]; simp
    constructor
    · simp [hg, hc, performArchive]
    · simp only [hg, hc]
      simp only [Bool.false_eq_true, if_false]
      intro heq
      have hlen := congrArg List.length heq
      simp only [List.length_append, List.length_map] at hlen
      have hz : (performArchiveLoop env.moveResult env.refreshed
          (normalizePathPure settings.archivePath) (getItemName p) ds 0
          (MAX_RENAME_RETRIES - 1) d).2.length = 0 := by
        simp only [performArchive] at hlen
        omega
      exact performArchiveLoop_ne_nil env.moveResult env.refreshed _ _ ds 0
        (MAX_RENAME_RETRIES - 1) d (List.eq_nil_of_length_eq_zero hz)

/-- C2 (amended, witness): the fallback behavior at the concrete no-owning-root
input. -/
theorem claim_C2_witness :
    (archiveItem ⟨fun _ _ => none, fun _ _ => false, fun _ => none, false, true⟩
        (fun _ => false) ⟨"Projects", "Areas", "Resources", "Archive"⟩ "2024-03-15"
        ⟨[], [], [], []⟩ "Stuff/Item").listCalls =
      ([] : List String) ++ [normalizePathPure "Archive"] :=
  (claim_C2 ⟨fun _ _ => none, fun _ _ => false, fun _ => none, false, true⟩
    (fun _ => false) ⟨"Projects", "Areas", "Resources", "Archive"⟩ "2024-03-15"
    ⟨[], [], [], []⟩ "Stuff/Item" (by decide) (by decide) (by decide)).2.1

end Aparatus
